import Mathlib

/-
Verification of the incremental static-site build command
(coltrane/management/commands/build.py and coltrane/utils.py).

The build command classifies every discovered markdown file against a
persisted manifest of fingerprints (modification time + md5 content hash),
renders only what changed, aggregates outcome counters and per-file errors,
and persists the manifest at the end when it is dirty.

Embedding notes:
- `Manifest` / `ManifestItem` live in coltrane/manifest.py, which is not part
  of the sources provided here; their operations (`get`, `add`, `is_dirty`,
  `static_files_manifest_changed`, load) are modelled from the spec (see the
  doc comments below).
- File-system state is abstracted: each discovered file is a `File` record
  carrying its current fingerprint, whether `render_html` succeeds on it, and
  the exception text raised when it does not.
- The thread pool in `Command.handle` submits one task and immediately blocks
  on `future.exception()` (which waits for completion) before submitting the
  next, so the pipeline is embedded as a sequential loop; `processFiles` keeps
  the submit/await shape of the source and also tracks the number of futures
  in flight.
-/

set_option autoImplicit false

namespace Coltrane

/-- A discovered content file: its path, its current fingerprint (mtime and
md5 of its content), whether rendering it to HTML succeeds, and the exception
message produced when rendering fails. -/
structure File where
  path : String
  mtime : Nat
  md5 : Nat
  renderOk : Bool
  excName : String
  deriving DecidableEq, Repr

/-- Modelled from the spec: a manifest record holds the fingerprint
(modification time and content hash) captured when the file was last built.
The implementation class `ManifestItem` is in coltrane/manifest.py, which is
not among the provided sources. -/
structure ManifestItem where
  mtime : Nat
  md5 : Nat
  deriving DecidableEq, Repr

/-- Modelled from the spec: `ManifestItem.create(markdown_file)` fingerprints
the file at call time. -/
def ManifestItem.create (f : File) : ManifestItem :=
  ⟨f.mtime, f.md5⟩

/-- Point lookup in the manifest's path-keyed record list. -/
def lookupItem : List (String × ManifestItem) → String → Option ManifestItem
  | [], _ => none
  | (q, r) :: rest, p => if q = p then some r else lookupItem rest p

/-- Upsert into the manifest's path-keyed record list: replace the record for
the path when present, append otherwise. -/
def upsertItem : List (String × ManifestItem) → String → ManifestItem → List (String × ManifestItem)
  | [], p, it => [(p, it)]
  | (q, r) :: rest, p, it =>
      if q = p then (p, it) :: rest else (q, r) :: upsertItem rest p it

/-- Modelled from the spec: the manifest is a mapping path -> record plus an
`is_dirty` flag that becomes true the first time any record is added or
updated during the current build. Loading yields a clean (not dirty)
manifest. -/
structure Manifest where
  data : List (String × ManifestItem)
  isDirty : Bool
  deriving DecidableEq, Repr

/-- Modelled from the spec: `get(path)` is a point lookup with no side
effects. -/
def Manifest.get (m : Manifest) (p : String) : Option ManifestItem :=
  lookupItem m.data p

/-- Modelled from the spec: `add(path)` computes a fresh fingerprint for the
path, upserts the record, and sets `is_dirty = true`; it is the only mutation
entrypoint. -/
def Manifest.add (m : Manifest) (f : File) : Manifest :=
  ⟨upsertItem m.data f.path (ManifestItem.create f), true⟩

/-- The three outcome counters of `Command.output_result_counts`
(build.py line 37). -/
structure Counts where
  create_count : Nat
  update_count : Nat
  skip_count : Nat
  deriving DecidableEq, Repr

/-- Sum of the three outcome counters. -/
def Counts.total (c : Counts) : Nat :=
  c.create_count + c.update_count + c.skip_count

/-- Result of processing one file: updated counters and manifest, whether
`render_html` was invoked, whether the generated output file was written, and
the exception raised during rendering, if any. -/
structure FileStepOut where
  counts : Counts
  manifest : Manifest
  rendered : Bool
  wrote : Bool
  error : Option String
  deriving DecidableEq, Repr

/-- The `if not is_skipped:` tail of `Command._output_markdown_file`
(build.py lines 115-124): bump the update counter when a manifest record
exists and the create counter otherwise, then render; on success write the
generated file and upsert the manifest record, on failure the exception
escapes after the counter bump, with no write and no upsert. -/
def notSkippedStep (counts : Counts) (manifest : Manifest) (f : File)
    (existingSome : Bool) : FileStepOut :=
  let counts' :=
    if existingSome then { counts with update_count := counts.update_count + 1 }
    else { counts with create_count := counts.create_count + 1 }
  if f.renderOk then
    ⟨counts', manifest.add f, true, true, none⟩
  else
    ⟨counts', manifest, true, false, some f.excName⟩

/-- `Command._output_markdown_file` (build.py lines 96-124): fingerprint the
file, look it up in the manifest, skip on mtime match (manifest untouched) or
on md5 match (manifest record refreshed via `add`), and otherwise count and
render. The force flag disables both skip paths. -/
def outputMarkdownFile (isForce : Bool) (counts : Counts) (manifest : Manifest)
    (f : File) : FileStepOut :=
  let item := ManifestItem.create f
  match manifest.get f.path with
  | some existing =>
      if isForce then notSkippedStep counts manifest f true
      else if item.mtime = existing.mtime then
        ⟨{ counts with skip_count := counts.skip_count + 1 }, manifest, false, false, none⟩
      else if item.md5 = existing.md5 then
        ⟨{ counts with skip_count := counts.skip_count + 1 }, manifest.add f, false, false, none⟩
      else notSkippedStep counts manifest f true
  | none => notSkippedStep counts manifest f false

/-- Mutable attributes of the `Command` instance that persist across calls to
`handle` (build.py lines 34-37). -/
structure CommandState where
  is_force : Bool
  threads_count : Int
  manifest : Option Manifest
  counts : Counts
  deriving DecidableEq, Repr

/-- Class-level initial values of the command attributes
(build.py lines 34-37). -/
def initialCommand : CommandState :=
  ⟨false, 2, none, ⟨0, 0, 0⟩⟩

/-- The reset prologue of `Command.handle` (build.py lines 158-163): force
flag cleared, manifest unloaded, all three counters zeroed; `threads_count`
is not reset. -/
def resetState (s : CommandState) : CommandState :=
  { s with is_force := false, manifest := none, counts := ⟨0, 0, 0⟩ }

/-- CLI options consumed by `handle`: the `--force` flag and the raw
`--threads` string (absent when the option was not passed). -/
structure Options where
  force : Bool
  threads : Option String
  deriving DecidableEq, Repr

/-- Decimal digit run to a natural number; fails on an empty run or any
non-digit character. -/
def parseNatDigits (cs : List Char) : Option Nat :=
  if cs.isEmpty then none
  else if cs.all Char.isDigit then
    some (cs.foldl (fun a ch => a * 10 + (ch.toNat - 48)) 0)
  else none

/-- Python `int(s)` on the `--threads` string: an optionally signed decimal
integer, `ValueError` (here: `none`) otherwise (Python additionally strips
whitespace and accepts digit-group underscores; the claims only need that
valid and invalid inputs exist). -/
def parseInt (s : String) : Option Int :=
  match s.data with
  | '-' :: rest => (parseNatDigits rest).map (fun n => -(n : Int))
  | '+' :: rest => (parseNatDigits rest).map (fun n => (n : Int))
  | cs => (parseNatDigits cs).map (fun n => (n : Int))

/-- Thread-count resolution in `Command.handle` (build.py lines 200-209).
When `--threads` is present and truthy (non-empty string), `int(...)` is
attempted and a `ValueError` leaves the previous `threads_count` untouched;
otherwise the default `(cpu_count() // 2) - 1` is computed (no flooring). -/
def resolveThreads (prev : Int) (threads : Option String) (cpuCount : Nat) : Int :=
  match threads with
  | some s =>
      if s = "" then Int.ofNat (cpuCount / 2) - 1
      else
        match parseInt s with
        | some n => n
        | none => prev
  | none => Int.ofNat (cpuCount / 2) - 1

/-- Error message built in the pool loop (build.py line 224) when a future
completed with an exception. -/
def renderErrorMessage (p : String) (e : String) : String :=
  "Rendering " ++ p ++ " failed. " ++ e

/-- Aggregate result of the file-processing loop. -/
structure LoopOut where
  counts : Counts
  manifest : Manifest
  renders : List String
  written : List String
  errors : List String
  maxInFlight : Nat
  deriving DecidableEq, Repr

/-- The pool loop of `Command.handle` (build.py lines 219-225): for each path
in discovery order, submit `_output_markdown_file` to the executor and
immediately block on `future.exception()` (which waits for the future to
finish) before the next submission, collecting an error message when the
future raised. `maxInFlight` records the largest number of submitted but not
yet completed futures: each iteration submits one future and awaits it before
the loop continues. -/
def processFiles (isForce : Bool) : Counts → Manifest → List File → LoopOut
  | c, m, [] => ⟨c, m, [], [], [], 0⟩
  | c, m, f :: rest =>
      let r := outputMarkdownFile isForce c m f
      let restOut := processFiles isForce r.counts r.manifest rest
      ⟨restOut.counts, restOut.manifest,
        (if r.rendered then [f.path] else []) ++ restOut.renders,
        (if r.wrote then [f.path] else []) ++ restOut.written,
        (match r.error with
          | some e => [renderErrorMessage f.path e]
          | none => []) ++ restOut.errors,
        Nat.max 1 restOut.maxInFlight⟩

/-- Accumulator of the sequential reference loop. -/
structure LoopAcc where
  counts : Counts
  manifest : Manifest
  renders : List String
  written : List String
  errors : List String
  deriving DecidableEq, Repr

/-- One iteration of the sequential reference loop: process the file
synchronously and append its observations. -/
def seqStep (isForce : Bool) (acc : LoopAcc) (f : File) : LoopAcc :=
  let r := outputMarkdownFile isForce acc.counts acc.manifest f
  ⟨r.counts, r.manifest,
    acc.renders ++ (if r.rendered then [f.path] else []),
    acc.written ++ (if r.wrote then [f.path] else []),
    acc.errors ++
      (match r.error with
        | some e => [renderErrorMessage f.path e]
        | none => [])⟩

/-- Sequential reference semantics of the pipeline, stated from the claim's
words: a plain sequential loop over the discovered files in discovery order,
one file fully processed before the next starts. -/
def seqProcess (isForce : Bool) (c : Counts) (m : Manifest) (files : List File) : LoopAcc :=
  files.foldl (seqStep isForce) ⟨c, m, [], [], []⟩

/-- The error-reporting loop after the summary (build.py lines 231-232):
`for error in errors: spinner.fail(error_message)` prints the variable
`error_message` — which after the pool loop holds the message of the last
collected error — once per collected error. -/
def printedFailLines (errors : List String) : List String :=
  match errors.getLast? with
  | none => []
  | some last => errors.map (fun _ => last)

/-- Observable result of one `Command.handle` run. -/
structure BuildRun where
  is_force : Bool
  threads_count : Int
  counts : Counts
  manifest : Manifest
  renders : List String
  written : List String
  errors : List String
  printed : List String
  wroteManifest : Bool
  deriving DecidableEq, Repr

/-- `Command.handle` (build.py lines 158-237): reset the per-run attributes,
load the manifest from disk (clean, per the spec's Manifest Store `load`),
set the force flag from `--force` and escalate it when the static-asset
manifest changed and force was not already set, resolve the thread count,
run the pool loop over the discovered files, print the collected errors, and
invoke the manifest persistence write exactly when the manifest is dirty.
`diskData` is the persisted manifest content, `staticChanged` the
spec-modelled `static_files_manifest_changed` signal of the loaded manifest,
`cpuCount` the value of `cpu_count()`, and `files` the discovery order of
`get_content_paths()`. -/
def handle (cmd : CommandState) (opts : Options)
    (diskData : List (String × ManifestItem)) (staticChanged : Bool)
    (cpuCount : Nat) (files : List File) : BuildRun :=
  let s0 := resetState cmd
  let manifest0 : Manifest := ⟨diskData, false⟩
  let isForce1 := if opts.force then true else s0.is_force
  let isForce2 := if !isForce1 && staticChanged then true else isForce1
  let threads := resolveThreads s0.threads_count opts.threads cpuCount
  let out := processFiles isForce2 s0.counts manifest0 files
  ⟨isForce2, threads, out.counts, out.manifest, out.renders, out.written,
    out.errors, printedFailLines out.errors, out.manifest.isDirty⟩

end Coltrane

namespace Coltrane

/- Helper lemmas about manifest lookup and upsert. -/

theorem lookupItem_upsertItem_self (d : List (String × ManifestItem)) (p : String)
    (it : ManifestItem) : lookupItem (upsertItem d p it) p = some it := by
  induction d with
  | nil => simp [upsertItem, lookupItem]
  | cons hd tl ih =>
      obtain ⟨q, r⟩ := hd
      by_cases hq : q = p
      · subst hq
        simp [upsertItem, lookupItem]
      · simp [upsertItem, lookupItem, hq, ih]

theorem lookupItem_upsertItem_ne (d : List (String × ManifestItem)) (p p' : String)
    (it : ManifestItem) (hp : p' ≠ p) :
    lookupItem (upsertItem d p it) p' = lookupItem d p' := by
  induction d with
  | nil => simp [upsertItem, lookupItem, Ne.symm hp]
  | cons hd tl ih =>
      obtain ⟨q, r⟩ := hd
      by_cases hq : q = p
      · subst hq
        simp [upsertItem, lookupItem, Ne.symm hp]
      · simp only [upsertItem, if_neg hq]
        by_cases hq' : q = p'
        · subst hq'
          simp [lookupItem]
        · simp [lookupItem, hq', ih]

theorem Manifest.get_add_self (m : Manifest) (f : File) :
    (m.add f).get f.path = some ⟨f.mtime, f.md5⟩ :=
  lookupItem_upsertItem_self m.data f.path (ManifestItem.create f)

theorem Manifest.get_add_ne (m : Manifest) (f : File) (p : String) (hp : p ≠ f.path) :
    (m.add f).get p = m.get p :=
  lookupItem_upsertItem_ne m.data f.path p (ManifestItem.create f) hp

/- Helper lemmas about the per-file step. -/

theorem notSkippedStep_counts (c : Counts) (m : Manifest) (f : File) (b : Bool) :
    (notSkippedStep c m f b).counts =
      (if b then { c with update_count := c.update_count + 1 }
       else { c with create_count := c.create_count + 1 }) := by
  cases hb : f.renderOk <;> simp [notSkippedStep, hb]

theorem outputMarkdownFile_force_counts (c : Counts) (m : Manifest) (f : File) :
    (outputMarkdownFile true c m f).counts =
      (if (m.get f.path).isSome then { c with update_count := c.update_count + 1 }
       else { c with create_count := c.create_count + 1 }) := by
  cases hg : m.get f.path <;>
    simp [outputMarkdownFile, hg, notSkippedStep_counts]

theorem outputMarkdownFile_total (i : Bool) (c : Counts) (m : Manifest) (f : File) :
    (outputMarkdownFile i c m f).counts.total = c.total + 1 := by
  cases hg : m.get f.path with
  | none =>
      simp only [outputMarkdownFile, hg]
      rw [notSkippedStep_counts]
      simp [Counts.total]
      omega
  | some e =>
      cases i with
      | true =>
          simp only [outputMarkdownFile, hg, if_true]
          rw [notSkippedStep_counts]
          simp [Counts.total]
          omega
      | false =>
          by_cases hm : (ManifestItem.create f).mtime = e.mtime
          · simp [outputMarkdownFile, hg, hm, Counts.total]
            omega
          · by_cases hh : (ManifestItem.create f).md5 = e.md5
            · simp [outputMarkdownFile, hg, hm, hh, Counts.total]
              omega
            · simp only [outputMarkdownFile, hg, if_neg hm, if_neg hh, Bool.false_eq_true,
                if_false]
              rw [notSkippedStep_counts]
              simp [Counts.total]
              omega

theorem outputMarkdownFile_manifest_cases (i : Bool) (c : Counts) (m : Manifest) (f : File) :
    (outputMarkdownFile i c m f).manifest = m ∨
    (outputMarkdownFile i c m f).manifest = m.add f := by
  rcases hg : m.get f.path with _ | e
  · cases hb : f.renderOk <;> simp [outputMarkdownFile, notSkippedStep, hg, hb]
  · cases i with
    | true => cases hb : f.renderOk <;> simp [outputMarkdownFile, notSkippedStep, hg, hb]
    | false =>
        by_cases hm : (ManifestItem.create f).mtime = e.mtime
        · simp [outputMarkdownFile, hg, hm]
        · by_cases hh : (ManifestItem.create f).md5 = e.md5
          · simp [outputMarkdownFile, hg, hm, hh]
          · cases hb : f.renderOk <;>
              simp [outputMarkdownFile, notSkippedStep, hg, hm, hh, hb]

theorem outputMarkdownFile_get_ne (i : Bool) (c : Counts) (m : Manifest) (f : File)
    (p : String) (hp : p ≠ f.path) :
    (outputMarkdownFile i c m f).manifest.get p = m.get p := by
  rcases outputMarkdownFile_manifest_cases i c m f with h | h <;> rw [h]
  exact Manifest.get_add_ne m f p hp

theorem outputMarkdownFile_get_self (i : Bool) (c : Counts) (m : Manifest) (f : File)
    (hr : f.renderOk = true) :
    ∃ e, (outputMarkdownFile i c m f).manifest.get f.path = some e ∧ e.mtime = f.mtime := by
  rcases hg : m.get f.path with _ | e
  · refine ⟨⟨f.mtime, f.md5⟩, ?_, rfl⟩
    simp [outputMarkdownFile, notSkippedStep, hg, hr, Manifest.get_add_self]
  · cases i with
    | true =>
        refine ⟨⟨f.mtime, f.md5⟩, ?_, rfl⟩
        simp [outputMarkdownFile, notSkippedStep, hg, hr, Manifest.get_add_self]
    | false =>
        by_cases hm : (ManifestItem.create f).mtime = e.mtime
        · refine ⟨e, ?_, ?_⟩
          · simp [outputMarkdownFile, hg, hm]
          · simpa [ManifestItem.create] using hm.symm
        · by_cases hh : (ManifestItem.create f).md5 = e.md5
          · refine ⟨⟨f.mtime, f.md5⟩, ?_, rfl⟩
            simp [outputMarkdownFile, hg, hm, hh, Manifest.get_add_self]
          · refine ⟨⟨f.mtime, f.md5⟩, ?_, rfl⟩
            simp [outputMarkdownFile, notSkippedStep, hg, hm, hh, hr,
              Manifest.get_add_self]

theorem processFiles_get_preserved (i : Bool) (files : List File) :
    ∀ (c : Counts) (m : Manifest) (p : String), p ∉ files.map File.path →
      (processFiles i c m files).manifest.get p = m.get p := by
  induction files with
  | nil => intro c m p _; simp [processFiles]
  | cons g rest ih =>
      intro c m p hp
      simp only [List.map_cons, List.mem_cons, not_or] at hp
      simp only [processFiles]
      rw [ih _ _ p hp.2, outputMarkdownFile_get_ne i c m g p hp.1]

theorem processFiles_mtime_invariant (i : Bool) (files : List File) :
    ∀ (c : Counts) (m : Manifest), (files.map File.path).Nodup →
      (∀ f ∈ files, f.renderOk = true) →
      ∀ f ∈ files, ∃ e,
        (processFiles i c m files).manifest.get f.path = some e ∧ e.mtime = f.mtime := by
  induction files with
  | nil => intro c m _ _ f hf; simp at hf
  | cons g rest ih =>
      intro c m hnd hr f hf
      simp only [List.map_cons, List.nodup_cons] at hnd
      rcases List.mem_cons.mp hf with hfg | hfr
      · subst hfg
        obtain ⟨e, he, hme⟩ :=
          outputMarkdownFile_get_self i c m f (hr f (List.mem_cons_self f rest))
        refine ⟨e, ?_, hme⟩
        simp only [processFiles]
        rw [processFiles_get_preserved i rest _ _ f.path hnd.1]
        exact he
      · have hr' : ∀ x ∈ rest, x.renderOk = true := fun x hx =>
          hr x (List.mem_cons_of_mem g hx)
        have h := ih (outputMarkdownFile i c m g).counts
          (outputMarkdownFile i c m g).manifest hnd.2 hr' f hfr
        simpa only [processFiles] using h

theorem processFiles_allSkip (files : List File) :
    ∀ (c : Counts) (m : Manifest),
      (∀ f ∈ files, ∃ e, m.get f.path = some e ∧ e.mtime = f.mtime) →
      (processFiles false c m files).manifest = m ∧
      (processFiles false c m files).counts =
        ⟨c.create_count, c.update_count, c.skip_count + files.length⟩ ∧
      (processFiles false c m files).renders = [] ∧
      (processFiles false c m files).written = [] ∧
      (processFiles false c m files).errors = [] := by
  induction files with
  | nil => intro c m _; simp [processFiles]
  | cons g rest ih =>
      intro c m hall
      obtain ⟨e, hg, hme⟩ := hall g (List.mem_cons_self g rest)
      have hstep : outputMarkdownFile false c m g =
          ⟨{ c with skip_count := c.skip_count + 1 }, m, false, false, none⟩ := by
        simp [outputMarkdownFile, hg, ManifestItem.create, hme]
      obtain ⟨h1, h2, h3, h4, h5⟩ :=
        ih { c with skip_count := c.skip_count + 1 } m
          (fun f hf => hall f (List.mem_cons_of_mem g hf))
      simp only [processFiles, hstep]
      refine ⟨h1, ?_, by simp [h3], by simp [h4], by simp [h5]⟩
      rw [h2]
      simp only [List.length_cons, Counts.mk.injEq]
      refine ⟨trivial, trivial, by omega⟩


theorem processFiles_total (i : Bool) (files : List File) :
    ∀ (c : Counts) (m : Manifest),
      (processFiles i c m files).counts.total = c.total + files.length := by
  induction files with
  | nil => intro c m; simp [processFiles]
  | cons g rest ih =>
      intro c m
      simp only [processFiles]
      rw [ih, outputMarkdownFile_total]
      simp only [List.length_cons]
      omega

theorem processFiles_force (files : List File) :
    ∀ (c : Counts) (m : Manifest),
      (processFiles true c m files).counts.skip_count = c.skip_count ∧
      (processFiles true c m files).counts.create_count +
          (processFiles true c m files).counts.update_count =
        c.create_count + c.update_count + files.length := by
  induction files with
  | nil => intro c m; simp [processFiles]
  | cons g rest ih =>
      intro c m
      have hskip : (outputMarkdownFile true c m g).counts.skip_count = c.skip_count := by
        rw [outputMarkdownFile_force_counts]
        split <;> rfl
      have hcu : (outputMarkdownFile true c m g).counts.create_count +
          (outputMarkdownFile true c m g).counts.update_count =
          c.create_count + c.update_count + 1 := by
        rw [outputMarkdownFile_force_counts]
        split <;> simp <;> omega
      obtain ⟨h1, h2⟩ :=
        ih (outputMarkdownFile true c m g).counts (outputMarkdownFile true c m g).manifest
      simp only [processFiles]
      refine ⟨by rw [h1, hskip], ?_⟩
      rw [h2, hcu]
      simp only [List.length_cons]
      omega

theorem processFiles_fresh (i : Bool) (files : List File) :
    ∀ (c : Counts) (m : Manifest), (files.map File.path).Nodup →
      (∀ f ∈ files, m.get f.path = none) →
      (processFiles i c m files).errors =
        (files.filter (fun f => !f.renderOk)).map
          (fun f => renderErrorMessage f.path f.excName) ∧
      (processFiles i c m files).counts =
        ⟨c.create_count + files.length, c.update_count, c.skip_count⟩ := by
  induction files with
  | nil => intro c m _ _; simp [processFiles]
  | cons g rest ih =>
      intro c m hnd hget
      simp only [List.map_cons, List.nodup_cons] at hnd
      have hg : m.get g.path = none := hget g (List.mem_cons_self g rest)
      have hstep : outputMarkdownFile i c m g = notSkippedStep c m g false := by
        simp [outputMarkdownFile, hg]
      have hget' : ∀ f ∈ rest, (notSkippedStep c m g false).manifest.get f.path = none := by
        intro f hf
        have hpne : f.path ≠ g.path := fun hc =>
          hnd.1 (hc ▸ List.mem_map_of_mem File.path hf)
        have hcase : (notSkippedStep c m g false).manifest = m ∨
            (notSkippedStep c m g false).manifest = m.add g := by
          cases hb : g.renderOk <;> simp [notSkippedStep, hb]
        rcases hcase with hc | hc <;> rw [hc]
        · exact hget f (List.mem_cons_of_mem g hf)
        · rw [Manifest.get_add_ne m g f.path hpne]
          exact hget f (List.mem_cons_of_mem g hf)
      obtain ⟨h1, h2⟩ := ih (notSkippedStep c m g false).counts
        (notSkippedStep c m g false).manifest hnd.2 hget'
      have hcounts : (notSkippedStep c m g false).counts =
          { c with create_count := c.create_count + 1 } := by
        rw [notSkippedStep_counts]
        rfl
      simp only [processFiles, hstep]
      constructor
      · rw [h1]
        cases hb : g.renderOk with
        | true => simp [notSkippedStep, hb, List.filter_cons]
        | false => simp [notSkippedStep, hb, List.filter_cons, renderErrorMessage]
      · rw [h2, hcounts]
        simp only [List.length_cons, Counts.mk.injEq]
        refine ⟨by omega, trivial, trivial⟩

theorem processFiles_maxInFlight (i : Bool) (files : List File) :
    ∀ (c : Counts) (m : Manifest), (processFiles i c m files).maxInFlight ≤ 1 := by
  induction files with
  | nil => intro c m; simp [processFiles]
  | cons g rest ih =>
      intro c m
      simp only [processFiles]
      have h := ih (outputMarkdownFile i c m g).counts (outputMarkdownFile i c m g).manifest
      exact Nat.max_le.mpr ⟨le_refl 1, h⟩

theorem foldl_seqStep_eq (i : Bool) (files : List File) :
    ∀ (c : Counts) (m : Manifest) (rs ws es : List String),
      files.foldl (seqStep i) ⟨c, m, rs, ws, es⟩ =
        ⟨(processFiles i c m files).counts, (processFiles i c m files).manifest,
          rs ++ (processFiles i c m files).renders,
          ws ++ (processFiles i c m files).written,
          es ++ (processFiles i c m files).errors⟩ := by
  induction files with
  | nil => intro c m rs ws es; simp [processFiles]
  | cons g rest ih =>
      intro c m rs ws es
      simp only [List.foldl_cons, seqStep, processFiles]
      rw [ih]
      simp [List.append_assoc]

/-- C1: For every file, classification follows the five-step decision
procedure of `Command._output_markdown_file`: with the force flag set, the
outcome is update when a manifest record exists and create otherwise and the
file is rendered; else with no record the outcome is create and the file is
rendered; else on mtime match the outcome is skip, nothing is rendered and
the manifest is untouched; else on content-hash match the outcome is counted
as skip but the manifest record is refreshed via `add` and nothing is
rendered; otherwise the outcome is update and the file is rendered. -/
theorem classification_five_steps (isForce : Bool) (c : Counts) (m : Manifest)
    (f : File) (hr : f.renderOk = true) :
    (isForce = true →
      outputMarkdownFile isForce c m f =
        ⟨(if (m.get f.path).isSome then { c with update_count := c.update_count + 1 }
          else { c with create_count := c.create_count + 1 }),
          m.add f, true, true, none⟩) ∧
    (isForce = false → m.get f.path = none →
      outputMarkdownFile isForce c m f =
        ⟨{ c with create_count := c.create_count + 1 }, m.add f, true, true, none⟩) ∧
    (∀ e, isForce = false → m.get f.path = some e → f.mtime = e.mtime →
      outputMarkdownFile isForce c m f =
        ⟨{ c with skip_count := c.skip_count + 1 }, m, false, false, none⟩) ∧
    (∀ e, isForce = false → m.get f.path = some e → f.mtime ≠ e.mtime →
        f.md5 = e.md5 →
      outputMarkdownFile isForce c m f =
        ⟨{ c with skip_count := c.skip_count + 1 }, m.add f, false, false, none⟩) ∧
    (∀ e, isForce = false → m.get f.path = some e → f.mtime ≠ e.mtime →
        f.md5 ≠ e.md5 →
      outputMarkdownFile isForce c m f =
        ⟨{ c with update_count := c.update_count + 1 }, m.add f, true, true, none⟩) := by
  refine ⟨?_, ?_, ?_, ?_, ?_⟩
  · intro hf
    subst hf
    rcases hg : m.get f.path with _ | e <;>
      simp [outputMarkdownFile, notSkippedStep, hg, hr]
  · intro hf hg
    subst hf
    simp [outputMarkdownFile, notSkippedStep, hg, hr]
  · intro e hf hg hm
    subst hf
    simp [outputMarkdownFile, hg, ManifestItem.create, hm]
  · intro e hf hg hm hh
    subst hf
    simp [outputMarkdownFile, hg, ManifestItem.create, hm, hh]
  · intro e hf hg hm hh
    subst hf
    simp [outputMarkdownFile, notSkippedStep, hg, ManifestItem.create, hm, hh, hr]

/-- Concrete instantiation of the classification theorem: a file whose
fingerprint's mtime matches the stored record is skipped with the manifest
untouched. -/
theorem classification_five_steps_witness :
    outputMarkdownFile false ⟨0, 0, 0⟩ ⟨[("a.md", ⟨5, 7⟩)], false⟩
        ⟨"a.md", 5, 7, true, "E"⟩ =
      ⟨⟨0, 0, 1⟩, ⟨[("a.md", ⟨5, 7⟩)], false⟩, false, false, none⟩ :=
  (classification_five_steps false ⟨0, 0, 0⟩ ⟨[("a.md", ⟨5, 7⟩)], false⟩
      ⟨"a.md", 5, 7, true, "E"⟩ rfl).2.2.1 ⟨5, 7⟩ rfl (by decide) rfl

/-- C5: For a file whose mtime changed but whose content hash equals the
stored record's, without force, the skipped counter is incremented, the
manifest record is refreshed to the new mtime via `add` (leaving the dirty
flag set), the file's content is not re-rendered and its generated output
file is not rewritten, and no error is produced. -/
theorem hash_fallback_refreshes_manifest (c : Counts) (m : Manifest) (f : File)
    (e : ManifestItem) (hg : m.get f.path = some e) (hm : f.mtime ≠ e.mtime)
    (hh : f.md5 = e.md5) :
    outputMarkdownFile false c m f =
      ⟨{ c with skip_count := c.skip_count + 1 }, m.add f, false, false, none⟩ ∧
    (m.add f).get f.path = some ⟨f.mtime, f.md5⟩ ∧
    (m.add f).isDirty = true := by
  refine ⟨?_, Manifest.get_add_self m f, rfl⟩
  simp [outputMarkdownFile, hg, ManifestItem.create, hm, hh]

/-- Concrete instantiation of the hash-fallback theorem: mtime moved from 5
to 9, hash unchanged, so the run skips but the stored record advances to the
new mtime. -/
theorem hash_fallback_refreshes_manifest_witness :
    outputMarkdownFile false ⟨0, 0, 0⟩ ⟨[("a.md", ⟨5, 7⟩)], false⟩
        ⟨"a.md", 9, 7, true, "E"⟩ =
      ⟨⟨0, 0, 1⟩, ⟨[("a.md", ⟨9, 7⟩)], true⟩, false, false, none⟩ :=
  (hash_fallback_refreshes_manifest ⟨0, 0, 0⟩ ⟨[("a.md", ⟨5, 7⟩)], false⟩
      ⟨"a.md", 9, 7, true, "E"⟩ ⟨5, 7⟩ (by decide) (by decide) rfl).1

/-- C2: Whenever the effective force flag is true — `--force` was passed, or
the awaited asset-collection result reports a static-asset change while
`--force` was not passed — every discovered file of the run is classified
create or update and never skip: the final skip counter is zero and the
create and update counters together count every discovered file. -/
theorem effective_force_never_skips (cmd : CommandState) (opts : Options)
    (diskData : List (String × ManifestItem)) (staticChanged : Bool)
    (cpuCount : Nat) (files : List File)
    (hf : opts.force = true ∨ staticChanged = true) :
    (handle cmd opts diskData staticChanged cpuCount files).counts.skip_count = 0 ∧
    (handle cmd opts diskData staticChanged cpuCount files).counts.create_count +
        (handle cmd opts diskData staticChanged cpuCount files).counts.update_count =
      files.length := by
  have hforce : (handle cmd opts diskData staticChanged cpuCount files).counts =
      (processFiles true ⟨0, 0, 0⟩ ⟨diskData, false⟩ files).counts := by
    rcases hf with hf | hf <;>
      simp [handle, resetState, hf]
  obtain ⟨h1, h2⟩ := processFiles_force files ⟨0, 0, 0⟩ ⟨diskData, false⟩
  rw [hforce]
  exact ⟨h1, by simpa using h2⟩

/-- Concrete instantiation of the force theorem: with `--force` over one file
whose fingerprint matches the manifest record exactly, nothing is skipped and
the file is counted as updated. -/
theorem effective_force_never_skips_witness :
    (handle initialCommand ⟨true, none⟩ [("a.md", ⟨5, 7⟩)] false 4
        [⟨"a.md", 5, 7, true, "E"⟩]).counts.skip_count = 0 ∧
    (handle initialCommand ⟨true, none⟩ [("a.md", ⟨5, 7⟩)] false 4
        [⟨"a.md", 5, 7, true, "E"⟩]).counts.create_count +
      (handle initialCommand ⟨true, none⟩ [("a.md", ⟨5, 7⟩)] false 4
        [⟨"a.md", 5, 7, true, "E"⟩]).counts.update_count = 1 :=
  effective_force_never_skips initialCommand ⟨true, none⟩ [("a.md", ⟨5, 7⟩)] false 4
    [⟨"a.md", 5, 7, true, "E"⟩] (Or.inl rfl)

/-- C8: For a fixed set of discovered files and a fixed manifest state,
running the build with `--threads 1` and with `--threads 8` produces
identical final outcome counters and identical final manifest content; the
final results do not depend on the worker count. -/
theorem thread_count_independence (cmd : CommandState) (force : Bool)
    (diskData : List (String × ManifestItem)) (staticChanged : Bool)
    (cpuCount : Nat) (files : List File) :
    (handle cmd ⟨force, some "1"⟩ diskData staticChanged cpuCount files).counts =
      (handle cmd ⟨force, some "8"⟩ diskData staticChanged cpuCount files).counts ∧
    (handle cmd ⟨force, some "1"⟩ diskData staticChanged cpuCount files).manifest =
      (handle cmd ⟨force, some "8"⟩ diskData staticChanged cpuCount files).manifest := by
  constructor <;> rfl

/-- C9: The orchestrator's loop submits one file to the pool and immediately
blocks on the future's exception before submitting the next, so at most one
future is ever in flight and the whole pipeline is equivalent to a plain
sequential loop over the discovered files in discovery order. -/
theorem pool_loop_is_sequential (isForce : Bool) (c : Counts) (m : Manifest)
    (files : List File) :
    (processFiles isForce c m files).counts = (seqProcess isForce c m files).counts ∧
    (processFiles isForce c m files).manifest = (seqProcess isForce c m files).manifest ∧
    (processFiles isForce c m files).renders = (seqProcess isForce c m files).renders ∧
    (processFiles isForce c m files).written = (seqProcess isForce c m files).written ∧
    (processFiles isForce c m files).errors = (seqProcess isForce c m files).errors ∧
    (processFiles isForce c m files).maxInFlight ≤ 1 := by
  have h := foldl_seqStep_eq isForce files c m [] [] []
  rw [seqProcess, h]
  exact ⟨rfl, rfl, by simp, by simp, by simp, processFiles_maxInFlight isForce files c m⟩

/-- C10: The prologue of `handle` resets the force flag, the manifest
reference and all three outcome counters before any file is processed, so
two runs on command objects that agree on the one attribute the prologue
keeps (`threads_count`) behave identically: no counter value, force state or
manifest state carries over between builds. -/
theorem handle_resets_state (s1 s2 : CommandState)
    (h : s1.threads_count = s2.threads_count) (opts : Options)
    (diskData : List (String × ManifestItem)) (staticChanged : Bool)
    (cpuCount : Nat) (files : List File) :
    (resetState s1).is_force = false ∧ (resetState s1).manifest = none ∧
    (resetState s1).counts = ⟨0, 0, 0⟩ ∧
    handle s1 opts diskData staticChanged cpuCount files =
      handle s2 opts diskData staticChanged cpuCount files := by
  refine ⟨rfl, rfl, rfl, ?_⟩
  simp only [handle, resetState, h]

/-- Concrete instantiation of the reset theorem: a command object carrying
counters, a force flag and a stale manifest from an earlier build behaves
exactly like a fresh command object. -/
theorem handle_resets_state_witness :
    (resetState ⟨true, 2, some ⟨[("x.md", ⟨1, 1⟩)], true⟩, ⟨3, 4, 5⟩⟩).is_force = false ∧
    (resetState ⟨true, 2, some ⟨[("x.md", ⟨1, 1⟩)], true⟩, ⟨3, 4, 5⟩⟩).manifest = none ∧
    (resetState ⟨true, 2, some ⟨[("x.md", ⟨1, 1⟩)], true⟩, ⟨3, 4, 5⟩⟩).counts = ⟨0, 0, 0⟩ ∧
    handle ⟨true, 2, some ⟨[("x.md", ⟨1, 1⟩)], true⟩, ⟨3, 4, 5⟩⟩ ⟨false, none⟩ [] false 4
        [⟨"a.md", 5, 7, true, "E"⟩] =
      handle initialCommand ⟨false, none⟩ [] false 4 [⟨"a.md", 5, 7, true, "E"⟩] :=
  handle_resets_state ⟨true, 2, some ⟨[("x.md", ⟨1, 1⟩)], true⟩, ⟨3, 4, 5⟩⟩
    initialCommand rfl ⟨false, none⟩ [] false 4 [⟨"a.md", 5, 7, true, "E"⟩]

theorem Manifest.get_mk_data (m : Manifest) (b : Bool) (p : String) :
    Manifest.get ⟨m.data, b⟩ p = m.get p := rfl

theorem handle_run (cmd : CommandState) (opts : Options)
    (diskData : List (String × ManifestItem)) (staticChanged : Bool)
    (cpuCount : Nat) (files : List File) :
    ∃ i : Bool,
      (handle cmd opts diskData staticChanged cpuCount files).manifest =
        (processFiles i ⟨0, 0, 0⟩ ⟨diskData, false⟩ files).manifest ∧
      (handle cmd opts diskData staticChanged cpuCount files).counts =
        (processFiles i ⟨0, 0, 0⟩ ⟨diskData, false⟩ files).counts ∧
      (handle cmd opts diskData staticChanged cpuCount files).errors =
        (processFiles i ⟨0, 0, 0⟩ ⟨diskData, false⟩ files).errors ∧
      (handle cmd opts diskData staticChanged cpuCount files).wroteManifest =
        (processFiles i ⟨0, 0, 0⟩ ⟨diskData, false⟩ files).manifest.isDirty ∧
      (opts.force = false → staticChanged = false → i = false) := by
  refine ⟨(if !(if opts.force then true else false) && staticChanged then true
    else (if opts.force then true else false)), rfl, rfl, rfl, rfl, ?_⟩
  intro h1 h2
  simp [h1, h2]

/-- C4: Running a build twice in a row with no source changes and without
`--force` (and, on the second run, no static-asset change) yields zero
creates and zero updates on the second run, the manifest's dirty flag is
false at the end of the second run, and the manifest persistence write is
not invoked during that second run. The first run may be any run whose
renders all succeed over files with distinct paths; the second run loads the
manifest content the first run left behind. -/
theorem second_build_is_noop (cmd1 cmd2 : CommandState) (t1 t2 : Option String)
    (diskData : List (String × ManifestItem)) (sc1 : Bool) (cpu1 cpu2 : Nat)
    (files : List File) (hnd : (files.map File.path).Nodup)
    (hr : ∀ f ∈ files, f.renderOk = true) :
    (handle cmd2 ⟨false, t2⟩
        (handle cmd1 ⟨false, t1⟩ diskData sc1 cpu1 files).manifest.data
        false cpu2 files).counts.create_count = 0 ∧
    (handle cmd2 ⟨false, t2⟩
        (handle cmd1 ⟨false, t1⟩ diskData sc1 cpu1 files).manifest.data
        false cpu2 files).counts.update_count = 0 ∧
    (handle cmd2 ⟨false, t2⟩
        (handle cmd1 ⟨false, t1⟩ diskData sc1 cpu1 files).manifest.data
        false cpu2 files).manifest.isDirty = false ∧
    (handle cmd2 ⟨false, t2⟩
        (handle cmd1 ⟨false, t1⟩ diskData sc1 cpu1 files).manifest.data
        false cpu2 files).wroteManifest = false := by
  obtain ⟨i1, hm1, -, -, -, -⟩ := handle_run cmd1 ⟨false, t1⟩ diskData sc1 cpu1 files
  obtain ⟨i2, hm2, hc2, -, hw2, hi2⟩ := handle_run cmd2 ⟨false, t2⟩
    (handle cmd1 ⟨false, t1⟩ diskData sc1 cpu1 files).manifest.data false cpu2 files
  have hi2f : i2 = false := hi2 rfl rfl
  subst hi2f
  have hinv := processFiles_mtime_invariant i1 files ⟨0, 0, 0⟩ ⟨diskData, false⟩ hnd hr
  have hall : ∀ f ∈ files, ∃ e,
      Manifest.get ⟨(handle cmd1 ⟨false, t1⟩ diskData sc1 cpu1 files).manifest.data,
        false⟩ f.path = some e ∧ e.mtime = f.mtime := by
    intro f hf
    rw [hm1]
    obtain ⟨e, he, hme⟩ := hinv f hf
    exact ⟨e, by rw [Manifest.get_mk_data]; exact he, hme⟩
  obtain ⟨h1, h2, -, -, -⟩ := processFiles_allSkip files ⟨0, 0, 0⟩
    ⟨(handle cmd1 ⟨false, t1⟩ diskData sc1 cpu1 files).manifest.data, false⟩ hall
  refine ⟨?_, ?_, ?_, ?_⟩
  · rw [hc2, h2]
  · rw [hc2, h2]
  · rw [hm2, h1]
  · rw [hw2, h1]

/-- Concrete instantiation of the idempotence theorem: one file, empty
initial manifest; the second run creates and updates nothing, ends clean,
and skips the manifest write. -/
theorem second_build_is_noop_witness :
    (handle initialCommand ⟨false, none⟩
        (handle initialCommand ⟨false, none⟩ [] false 4
          [⟨"a.md", 5, 7, true, "E"⟩]).manifest.data
        false 4 [⟨"a.md", 5, 7, true, "E"⟩]).counts.create_count = 0 ∧
    (handle initialCommand ⟨false, none⟩
        (handle initialCommand ⟨false, none⟩ [] false 4
          [⟨"a.md", 5, 7, true, "E"⟩]).manifest.data
        false 4 [⟨"a.md", 5, 7, true, "E"⟩]).counts.update_count = 0 ∧
    (handle initialCommand ⟨false, none⟩
        (handle initialCommand ⟨false, none⟩ [] false 4
          [⟨"a.md", 5, 7, true, "E"⟩]).manifest.data
        false 4 [⟨"a.md", 5, 7, true, "E"⟩]).manifest.isDirty = false ∧
    (handle initialCommand ⟨false, none⟩
        (handle initialCommand ⟨false, none⟩ [] false 4
          [⟨"a.md", 5, 7, true, "E"⟩]).manifest.data
        false 4 [⟨"a.md", 5, 7, true, "E"⟩]).wroteManifest = false :=
  second_build_is_noop initialCommand initialCommand none none [] false 4 4
    [⟨"a.md", 5, 7, true, "E"⟩] (by simp) (by simp)

theorem filter_not_renderOk_nil (l : List File) (h : ∀ f ∈ l, f.renderOk = true) :
    l.filter (fun f => !f.renderOk) = [] := by
  induction l with
  | nil => rfl
  | cons g rest ih =>
      have hg := h g (List.mem_cons_self g rest)
      simp [List.filter_cons, hg, ih (fun f hf => h f (List.mem_cons_of_mem g hf))]

/-- C3 as stated is false: with two discovered files on a fresh manifest,
one of which fails during rendering, the build collects exactly one error,
yet the three counters together count 2 = N outcomes, not N - 1 = 1: the
failing file's create counter was already incremented before `render_html`
raised. -/
theorem error_isolation_counterexample :
    (handle initialCommand ⟨false, none⟩ [] false 4
        [⟨"a.md", 1, 1, true, "E1"⟩, ⟨"b.md", 1, 2, false, "E2"⟩]).errors.length = 1 ∧
    (handle initialCommand ⟨false, none⟩ [] false 4
        [⟨"a.md", 1, 1, true, "E1"⟩, ⟨"b.md", 1, 2, false, "E2"⟩]).counts.total = 2 ∧
    ¬ (handle initialCommand ⟨false, none⟩ [] false 4
        [⟨"a.md", 1, 1, true, "E1"⟩, ⟨"b.md", 1, 2, false, "E2"⟩]).counts.total = 2 - 1 := by
  refine ⟨rfl, rfl, ?_⟩
  decide

/-- C3 (amended): If exactly one of N discovered files fails during
rendering (here on a fresh, empty manifest with distinct paths), the build
still completes over the remaining files, exactly one BuildError referencing
the failed file is collected rather than raised, and exactly one counter is
incremented per discovered file — including the failed file, whose create
counter is incremented before the render failure — so the counters together
count N outcomes, of which N - 1 belong to successfully processed files. -/
theorem error_isolation_amended (cmd : CommandState) (opts : Options) (sc : Bool)
    (cpu : Nat) (pre post : List File) (bad : File)
    (hnd : ((pre ++ bad :: post).map File.path).Nodup)
    (hok : ∀ f ∈ pre ++ post, f.renderOk = true)
    (hbad : bad.renderOk = false) :
    (handle cmd opts [] sc cpu (pre ++ bad :: post)).errors =
      [renderErrorMessage bad.path bad.excName] ∧
    (handle cmd opts [] sc cpu (pre ++ bad :: post)).counts =
      ⟨(pre ++ bad :: post).length, 0, 0⟩ := by
  obtain ⟨i, -, hc, he, -, -⟩ := handle_run cmd opts [] sc cpu (pre ++ bad :: post)
  obtain ⟨h1, h2⟩ := processFiles_fresh i (pre ++ bad :: post) ⟨0, 0, 0⟩ ⟨[], false⟩
    hnd (fun f _ => rfl)
  have hfil : (pre ++ bad :: post).filter (fun f => !f.renderOk) = [bad] := by
    rw [List.filter_append, List.filter_cons]
    rw [filter_not_renderOk_nil pre (fun f hf => hok f (List.mem_append_left post hf)),
      filter_not_renderOk_nil post (fun f hf => hok f (List.mem_append_right pre hf))]
    simp [hbad]
  constructor
  · rw [he, h1, hfil]
    rfl
  · rw [hc, h2]
    simp

/-- Concrete instantiation of the amended error-isolation theorem: two fresh
files, the second failing; one collected error and counters summing to 2. -/
theorem error_isolation_amended_witness :
    (handle initialCommand ⟨false, none⟩ [] false 4
        [⟨"a.md", 1, 1, true, "E1"⟩, ⟨"b.md", 1, 2, false, "E2"⟩]).errors =
      [renderErrorMessage "b.md" "E2"] ∧
    (handle initialCommand ⟨false, none⟩ [] false 4
        [⟨"a.md", 1, 1, true, "E1"⟩, ⟨"b.md", 1, 2, false, "E2"⟩]).counts = ⟨2, 0, 0⟩ :=
  error_isolation_amended initialCommand ⟨false, none⟩ false 4
    [⟨"a.md", 1, 1, true, "E1"⟩] [] ⟨"b.md", 1, 2, false, "E2"⟩
    (by decide) (by decide) rfl

/-- C6 as stated is false twice over: a non-numeric `--threads abc` does not
fall back to the cpu-derived default — it leaves the previous
`threads_count` (the class default 2) in place, while the claimed default on
8 hardware threads would be 3 — and with `--threads` absent on 2 hardware
threads the computed default is (2 // 2) - 1 = 0, which is not floored at
1. -/
theorem threads_resolution_counterexample :
    (handle initialCommand ⟨false, some "abc"⟩ [] false 8 []).threads_count = 2 ∧
    Int.ofNat (8 / 2) - 1 = 3 ∧ (2 : Int) ≠ 3 ∧
    (handle initialCommand ⟨false, none⟩ [] false 2 []).threads_count = 0 ∧
    ¬ (1 ≤ (handle initialCommand ⟨false, none⟩ [] false 2 []).threads_count) := by
  refine ⟨?_, by decide, by decide, ?_, ?_⟩ <;> decide

/-- C6 (amended): The resolved worker thread count equals `int(--threads)`
whenever the option is present, non-empty and parses as an integer — even a
zero or negative one; a present but non-numeric value silently keeps the
command object's previous `threads_count` (initially 2) rather than the
computed default; and when the option is absent or empty the count is
`(cpu_count() // 2) - 1` with no lower bound. -/
theorem threads_resolution_amended (cmd : CommandState) (force : Bool)
    (t : Option String) (diskData : List (String × ManifestItem)) (sc : Bool)
    (cpu : Nat) (files : List File) :
    (∀ s n, t = some s → s ≠ "" → parseInt s = some n →
      (handle cmd ⟨force, t⟩ diskData sc cpu files).threads_count = n) ∧
    (∀ s, t = some s → s ≠ "" → parseInt s = none →
      (handle cmd ⟨force, t⟩ diskData sc cpu files).threads_count = cmd.threads_count) ∧
    (t = none →
      (handle cmd ⟨force, t⟩ diskData sc cpu files).threads_count =
        Int.ofNat (cpu / 2) - 1) ∧
    (t = some "" →
      (handle cmd ⟨force, t⟩ diskData sc cpu files).threads_count =
        Int.ofNat (cpu / 2) - 1) := by
  have hth : (handle cmd ⟨force, t⟩ diskData sc cpu files).threads_count =
      resolveThreads cmd.threads_count t cpu := rfl
  refine ⟨?_, ?_, ?_, ?_⟩
  · intro s n hs hne hp
    subst hs
    rw [hth]
    simp [resolveThreads, hne, hp]
  · intro s hs hne hp
    subst hs
    rw [hth]
    simp [resolveThreads, hne, hp]
  · intro hs
    subst hs
    rw [hth]
    simp [resolveThreads]
  · intro hs
    subst hs
    rw [hth]
    simp [resolveThreads]

/-- Concrete instantiation of the thread-resolution theorem: `--threads 3`
resolves to 3, and a non-numeric value keeps the previous count 2. -/
theorem threads_resolution_amended_witness :
    (handle initialCommand ⟨false, some "3"⟩ [] false 8 []).threads_count = 3 ∧
    (handle initialCommand ⟨false, some "abc"⟩ [] false 8 []).threads_count = 2 :=
  ⟨(threads_resolution_amended initialCommand false (some "3") [] false 8 []).1
      "3" 3 rfl (by decide) (by decide),
    (threads_resolution_amended initialCommand false (some "abc") [] false 8 []).2.1
      "abc" rfl (by decide) (by decide)⟩

/-- C7: The claim states the intended behavior — each collected BuildError's
own message printed exactly once — but the source's reporting loop
(build.py lines 231-232) iterates over `errors` while printing the loop-
independent variable `error_message`, which still holds the last collected
error: with two failing files the build collects two distinct messages yet
prints the second one twice and the first one never. -/
theorem error_reporting_prints_last_message :
    (handle initialCommand ⟨false, none⟩ [] false 4
        [⟨"a.md", 1, 1, false, "E1"⟩, ⟨"b.md", 1, 2, false, "E2"⟩]).errors =
      [renderErrorMessage "a.md" "E1", renderErrorMessage "b.md" "E2"] ∧
    (handle initialCommand ⟨false, none⟩ [] false 4
        [⟨"a.md", 1, 1, false, "E1"⟩, ⟨"b.md", 1, 2, false, "E2"⟩]).printed =
      [renderErrorMessage "b.md" "E2", renderErrorMessage "b.md" "E2"] ∧
    renderErrorMessage "a.md" "E1" ≠ renderErrorMessage "b.md" "E2" := by
  refine ⟨rfl, rfl, by decide⟩
